import Mathlib

/-!
Verification of the GitHub repository harvest engine
(`src/adapters/github_api.py`, `src/models/repository.py`,
`src/services/github_crawler.py`, `src/main.py`).

The Python code is shallowly embedded: pure data flow is translated to
Lean functions, the network transport is an explicit oracle parameter
(a function from requests to responses, or a list of responses, one per
attempt), wall-clock sleeps are recorded as explicit events in the
output, and Python exceptions become `Option` / `Except` / tagged
constructors.  Logging calls that carry a decision (the "Skipping
malformed node" warning of `_search_with_query`) are modelled as
counters; purely informational logging is dropped.
-/

/-! ## Data model: `src/models/repository.py` -/

/-- Embedding of the `Repository` dataclass.  The `fetched_at` wall-clock
timestamp (`datetime.now(timezone.utc)`) is the only field omitted: it is
read from the real-time clock and no claim concerns it. -/
structure Repository where
  id : Int
  node_id : String
  full_name : String
  owner_login : String
  name : String
  stargazer_count : Int
deriving DecidableEq, Repr

/-- Raw GraphQL node as consumed by `Repository.from_graphql_response`.
Each field is `none` when the key is absent from the JSON object or its
value is `null` (`dict.get` returns `None` in both cases; for
`stargazerCount` the code maps both to `0`).  `ownerLogin` flattens the
nested `owner.login` access (`node.get('owner', {}).get('login')`). -/
structure RawNode where
  databaseId : Option Int
  nodeId : Option String
  ownerLogin : Option String
  name : Option String
  stargazerCount : Option Int
deriving DecidableEq, Repr

/-- Python falsiness test for an optional string (`if not node_id: ...`):
`None` and the empty string are falsy. -/
def strFalsy : Option String → Bool
  | none => true
  | some s => s.isEmpty

/-- Embedding of `Repository.from_graphql_response`.  `none` models the
`KeyError` raised when a required field is missing; otherwise the entity
is built exactly as in the source (`full_name = f"{owner_login}/{name}"`,
`stargazer_count = int(stargazerCount) if ... else 0` with `.get`
default `0`). -/
def from_graphql_response (node : RawNode) : Option Repository :=
  match node.databaseId with
  | none => none
  | some dbid =>
    if strFalsy node.nodeId then none
    else if strFalsy node.ownerLogin then none
    else if strFalsy node.name then none
    else
      some
        { id := dbid
          node_id := node.nodeId.getD ""
          full_name := node.ownerLogin.getD "" ++ "/" ++ node.name.getD ""
          owner_login := node.ownerLogin.getD ""
          name := node.name.getD ""
          stargazer_count := node.stargazerCount.getD 0 }

/-- Embedding of the per-node mapping step in `_search_with_query`
(lines 258-265): a `null` node or a node whose `databaseId` is `None`
is filtered out silently by the guard
`if node is not None and node.get('databaseId') is not None`; a node
that passes the guard but makes `from_graphql_response` raise is dropped
with a logged warning.  The second component counts warnings logged for
this node (0 or 1). -/
def processNode (n : Option RawNode) : Option Repository × Nat :=
  match n with
  | none => (none, 0)
  | some node =>
    if node.databaseId.isSome then
      match from_graphql_response node with
      | some r => (some r, 0)
      | none => (none, 1)
    else (none, 0)

/-- Embedding of the `for node in nodes` mapping loop of
`_search_with_query`: returns the mapped repositories in order and the
total number of "Skipping malformed node" warnings logged. -/
def mapNodes : List (Option RawNode) → List Repository × Nat
  | [] => ([], 0)
  | n :: rest =>
    let p := processNode n
    let q := mapNodes rest
    match p.1 with
    | some repo => (repo :: q.1, p.2 + q.2)
    | none => (q.1, p.2 + q.2)

/-! ## Star-range table: `GitHubGraphQLAdapter.STAR_RANGES` -/

/-- Embedding of the `STAR_RANGES` class constant: `(min, None)` is an
unbounded `stars:>=min` range, `(min, some max)` the inclusive band
`[min, max]`. -/
def STAR_RANGES : List (Nat × Option Nat) :=
  [ (100000, none),
    (50000, some 99999),
    (20000, some 49999),
    (10000, some 19999),
    (5000, some 9999),
    (2000, some 4999),
    (1000, some 1999),
    (500, some 999),
    (200, some 499),
    (100, some 199),
    (50, some 99),
    (20, some 49),
    (10, some 19),
    (5, some 9),
    (2, some 4),
    (1, some 1),
    (0, some 0) ]

/-- Membership of a star count in one range of the table. -/
def inStarRange (r : Nat × Option Nat) (n : Nat) : Bool :=
  match r.2 with
  | none => decide (r.1 ≤ n)
  | some mx => decide (r.1 ≤ n ∧ n ≤ mx)

/-- Structural well-formedness of a descending ladder of bounded ranges:
the head range must be `[lo, top]` with `lo ≤ top`, and the remaining
ranges must tile `[0, lo-1]` contiguously, ending exactly at `0`. -/
def ladderFrom : Nat → List (Nat × Option Nat) → Bool
  | _, [] => false
  | top, (lo, some hi) :: rest =>
    (hi == top) && Nat.ble lo hi &&
      (if lo == 0 then rest.isEmpty else ladderFrom (lo - 1) rest)
  | _, (_, none) :: _ => false

/-- Decidable check that successive ranges have strictly decreasing
lower bounds (ordered from highest to lowest star count). -/
def descendingMins : List (Nat × Option Nat) → Bool
  | [] => true
  | [_] => true
  | a :: b :: rest => decide (b.1 < a.1) && descendingMins (b :: rest)

/-! ## Rate limit governor: `_check_and_handle_rate_limit` -/

/-- Embedding of `_check_and_handle_rate_limit`.  Times are integer Unix
seconds; the result is the number of seconds slept (`time.sleep` is the
only effect of the function besides logging; it never raises).  The
low-water mark `50` and the safety margin `+ 2` are the source's
constants. -/
def checkAndHandleRateLimit (remaining : Nat) (resetAt now : Int) : Int :=
  if remaining < 50 then
    let waitSeconds := resetAt - now
    if waitSeconds > 0 then waitSeconds + 2 else 0
  else 0

/-! ## Retry/backoff executor: `_execute_query` -/

/-- Lower-cases a string, as `str.lower()` does for ASCII text. -/
def strLower (s : String) : String := String.mk (s.data.map Char.toLower)

/-- Whether `pat` is a prefix of a character list. -/
def charsPrefix : List Char → List Char → Bool
  | [], _ => true
  | _ :: _, [] => false
  | a :: as, b :: bs => a == b && charsPrefix as bs

/-- Whether `pat` occurs anywhere in a character list. -/
def charsContain (pat : List Char) : List Char → Bool
  | [] => charsPrefix pat []
  | c :: cs => charsPrefix pat (c :: cs) || charsContain pat cs

/-- Substring test, the Python `pat in s` operator. -/
def containsSub (s pat : String) : Bool := charsContain pat.data s.data

/-- Outcome of one HTTP attempt as seen by `_execute_query` before any
classification: either the request timed out (`requests.Timeout`) or a
response arrived with a status code, a body text, a (possibly empty)
GraphQL `errors` message list, and the parsed `data` payload. -/
inductive HttpResult (α : Type) where
  | timeout
  | response (status : Nat) (text : String) (errors : List String) (payload : α)
deriving DecidableEq, Repr

/-- Classification of one attempt by the body of `_execute_query`:
`transientErr` models `requests.RequestException`/`requests.Timeout`
(the only exception types tenacity retries), `rateLimited` models
`RateLimitExceeded`, `fatal` models `GitHubAPIError`. -/
inductive AttemptOutcome (α : Type) where
  | success (payload : α)
  | transientErr (msg : String)
  | rateLimited (msg : String)
  | fatal (msg : String)
deriving DecidableEq, Repr

/-- Recognizer for the transient class. -/
def AttemptOutcome.isTransientErr : AttemptOutcome α → Bool
  | .transientErr _ => true
  | _ => false

/-- One recorded `time.sleep`: the 60-second rate-limit cooldown inside
the attempt body, or a tenacity backoff wait between attempts. -/
inductive SleepEvent where
  | cooldown (seconds : Nat)
  | backoff (seconds : Nat)
deriving DecidableEq, Repr

/-- The `'; '.join(error_messages)` step. -/
def joinErrors (errors : List String) : String := String.intercalate "; " errors

/-- Embedding of one pass through the body of `_execute_query` (the code
inside the `@retry` decorator), in source order: HTTP 403 with
rate-limit wording (cooldown then `RateLimitExceeded`), other 403
(`GitHubAPIError`), 502/503 (`requests.RequestException`), other
non-200 (`GitHubAPIError`), then the GraphQL `errors` triage, then
success returning `data.get('data', {})`.  The second component records
sleeps performed inside the attempt. -/
def attemptOnce : HttpResult α → AttemptOutcome α × List SleepEvent
  | .timeout => (.transientErr "timeout", [])
  | .response status text errors payload =>
    if status == 403 then
      if containsSub (strLower text) "rate limit" then
        (.rateLimited "Rate limit exceeded", [.cooldown 60])
      else (.fatal ("Forbidden: " ++ text), [])
    else if status == 502 || status == 503 then
      (.transientErr ("Server error: " ++ toString status), [])
    else if status != 200 then
      (.fatal ("API error: " ++ toString status ++ " - " ++ text), [])
    else if !errors.isEmpty then
      let errorStr := joinErrors errors
      if containsSub (strLower errorStr) "rate limit" then
        (.rateLimited errorStr, [.cooldown 60])
      else if containsSub (strLower errorStr) "timeout" ||
          containsSub (strLower errorStr) "loading" then
        (.transientErr errorStr, [])
      else (.fatal ("GraphQL errors: " ++ errorStr), [])
    else (.success payload, [])

/-- Failure surfaced by `_execute_query` to its caller:
`retryExhausted` models tenacity's `RetryError` after the fifth
transient failure, the other two are the undecorated exceptions
(`RateLimitExceeded` is not in `retry_if_exception_type`, so it
propagates on the first occurrence, as does `GitHubAPIError`). -/
inductive ExecFailure where
  | retryExhausted (msg : String)
  | rateLimitExceeded (msg : String)
  | apiError (msg : String)
deriving DecidableEq, Repr

/-- The tenacity `wait_exponential(multiplier=2, min=4, max=120)` delay
before retrying after attempt `n`. -/
def backoffWait (n : Nat) : Nat := min 120 (max 4 (2 * 2 ^ (n - 1)))

/-- Embedding of the tenacity retry loop around `_execute_query`:
`attempts` is the oracle sequence of provider behaviours (one per
attempt), `n` the 1-based attempt number.  `stop_after_attempt(5)` and
`retry_if_exception_type((requests.RequestException, requests.Timeout))`
are mirrored: only `transientErr` is retried, and only while `n < 5`.
On success the payload is returned with the attempt number that
succeeded; the sleep trace accumulates cooldowns and backoffs. -/
def executeQueryGo : List (HttpResult α) → Nat → Except ExecFailure (α × Nat) × List SleepEvent
  | [], _ => (.error (.retryExhausted "no further response"), [])
  | r :: rest, n =>
    let p := attemptOnce r
    match p.1 with
    | .success payload => (.ok (payload, n), p.2)
    | .rateLimited m => (.error (.rateLimitExceeded m), p.2)
    | .fatal m => (.error (.apiError m), p.2)
    | .transientErr m =>
      if n < 5 then
        let q := executeQueryGo rest (n + 1)
        (q.1, p.2 ++ [.backoff (backoffWait n)] ++ q.2)
      else (.error (.retryExhausted m), p.2)

/-- Embedding of a full `_execute_query` call (attempt numbering starts
at 1). -/
def executeQuery (attempts : List (HttpResult α)) :
    Except ExecFailure (α × Nat) × List SleepEvent :=
  executeQueryGo attempts 1

/-! ## Paginated fetcher: `_search_with_query` -/

/-- Result of one page query as seen by `_search_with_query`: `failure`
models `_execute_query` raising `GitHubAPIError` or `RateLimitExceeded`
(both caught by the `except` clause at line 241, which logs and breaks);
`success` carries `search.nodes`, `pageInfo.hasNextPage` and
`pageInfo.endCursor`.  The `rateLimit` part of the payload only feeds
the governor's sleep and is omitted here. -/
inductive PageResult where
  | failure
  | success (nodes : List (Option RawNode)) (hasNextPage : Bool) (endCursor : Option String)

/-- Number of raw nodes in a page result (0 for a failure). -/
def pageLen : PageResult → Nat
  | .failure => 0
  | .success nodes _ _ => nodes.length

/-- Raw node list of a page result (empty for a failure). -/
def pageNodes : PageResult → List (Option RawNode)
  | .failure => []
  | .success nodes _ _ => nodes

/-- The GraphQL variables of one page request: requested page size
(`first`) and continuation cursor (`after`). -/
structure PageRequest where
  first : Nat
  after : Option String
deriving DecidableEq, Repr

/-- A provider that never returns more nodes than the requested page
size (`first`), whatever the cursor. -/
def honors (f : Option String → Nat → PageResult) : Prop :=
  ∀ c n, pageLen (f c n) ≤ n

/-- Number of records the pagination loop mapped out of the pages that
answered a list of requests: the transport oracle `f` is a pure
function, so replaying `f req.after req.first` recovers exactly the
page each recorded request received, and summing the mapped entity
counts over a prefix of the request list recovers the loop's
`total_fetched` counter at the moment the next request was issued. -/
def repliesCount (f : Option String → Nat → PageResult) (reqs : List PageRequest) : Nat :=
  (reqs.map fun r => (mapNodes (pageNodes (f r.after r.first))).1.length).sum

/-- Embedding of the `while total_fetched < max_results` loop of
`_search_with_query`.  `f` is the transport oracle (cursor and requested
page size to page result, i.e. one `_execute_query` call), `fuel` bounds
the number of loop iterations (the Python loop does not terminate on its
own when a provider keeps answering pages of only malformed nodes), and
the result is the list of page requests issued paired with the list of
yielded repository batches.  Mirrored source behaviour, in order: the
`current_batch_size = min(batch_size, max_results - total_fetched)`
clamp; break on query failure; break on an empty `nodes` list; mapping
of nodes with silent/warned drops (`mapNodes`); `yield repositories`
only when non-empty; `total_fetched += len(repositories)`; break when
`hasNextPage` is false, else continue from `endCursor`.  The 0.1 s
inter-page sleep and the governor call have no effect on the data flow
and are not recorded here. -/
def searchWithQueryGo (f : Option String → Nat → PageResult) :
    Nat → Option String → Nat → Nat → Nat → List PageRequest × List (List Repository)
  | 0, _, _, _, _ => ([], [])
  | Nat.succ fuel, cursor, totalFetched, batchSize, maxResults =>
    if totalFetched < maxResults then
      let first := min batchSize (maxResults - totalFetched)
      match f cursor first with
      | .failure => ([⟨first, cursor⟩], [])
      | .success nodes hasNext endCur =>
        if nodes.isEmpty then ([⟨first, cursor⟩], [])
        else
          let repositories := (mapNodes nodes).1
          let yielded := if repositories.isEmpty then ([] : List (List Repository)) else [repositories]
          if hasNext then
            let q := searchWithQueryGo f fuel endCur (totalFetched + repositories.length)
              batchSize maxResults
            (⟨first, cursor⟩ :: q.1, yielded ++ q.2)
          else ([⟨first, cursor⟩], yielded)
    else ([], [])

/-- Embedding of a full `_search_with_query` call: cursor starts `null`,
`total_fetched` starts at 0. -/
def searchWithQuery (f : Option String → Nat → PageResult) (fuel batchSize maxResults : Nat) :
    List PageRequest × List (List Repository) :=
  searchWithQueryGo f fuel none 0 batchSize maxResults

/-! ## Partitioner + deduplicator: `search_repositories` -/

/-- Total number of entities in a list of batches. -/
def sumLens (l : List (List α)) : Nat := (l.map List.length).sum

/-- Embedding of the duplicate filter applied to one batch (lines
330-334): entities whose id is already in the seen-set are skipped, new
ids are added to the set as they are encountered.  The seen-set (a
Python `set`) is modelled as a list with membership. -/
def dedupBatch : List Repository → List Int → List Repository × List Int
  | [], seen => ([], seen)
  | r :: rs, seen =>
    if r.id ∈ seen then dedupBatch rs seen
    else
      let p := dedupBatch rs (r.id :: seen)
      (r :: p.1, p.2)

/-- Embedding of the `for batch in self._search_with_query(...)` loop of
`search_repositories` for one star range: deduplicate each batch, yield
it only when non-empty, add its length to the running total, and break
out of the loop as soon as `total_fetched >= max_repos`.  Returns the
yielded batches, the final seen-set, and the final running total. -/
def dedupLoop : List (List Repository) → List Int → Nat → Nat →
    List (List Repository) × List Int × Nat
  | [], seen, total, _ => ([], seen, total)
  | batch :: rest, seen, total, maxRepos =>
    let p := dedupBatch batch seen
    let yielded := if p.1.isEmpty then ([] : List (List Repository)) else [p.1]
    let total' := total + p.1.length
    if maxRepos ≤ total' then (yielded, p.2, total')
    else
      let q := dedupLoop rest p.2 total' maxRepos
      (yielded ++ q.1, q.2.1, q.2.2)

/-- The provider's behaviour for one star-range partition: the transport
oracle used by `_search_with_query` for that range's query string, and
the iteration fuel for its pagination loop. -/
structure RangeTransport where
  f : Option String → Nat → PageResult
  fuel : Nat

/-- Embedding of the `for min_stars, max_stars in self.STAR_RANGES` loop
of `search_repositories`: `transports` supplies the provider's pages for
the successive entries of `STAR_RANGES` (the star bounds themselves only
shape the query string, which the transport oracle has already absorbed).
Per range: break when `total_fetched >= max_repos`; run
`_search_with_query` with `max_results = min(1000, max_repos -
total_fetched)`; filter and yield via `dedupLoop`.  An inner break on
`total_fetched >= max_repos` is followed by the outer break at the next
range, which the recursion reproduces. -/
def searchRepositoriesGo : List RangeTransport → List Int → Nat → Nat → Nat →
    List (List Repository)
  | [], _, _, _, _ => []
  | t :: rest, seen, total, batchSize, maxRepos =>
    if maxRepos ≤ total then []
    else
      let batches := (searchWithQueryGo t.f t.fuel none 0 batchSize
        (min 1000 (maxRepos - total))).2
      let d := dedupLoop batches seen total maxRepos
      d.1 ++ searchRepositoriesGo rest d.2.1 d.2.2 batchSize maxRepos

/-- Embedding of a full `search_repositories` call: empty seen-set,
zero running total. -/
def searchRepositories (transports : List RangeTransport) (batchSize maxRepos : Nat) :
    List (List Repository) :=
  searchRepositoriesGo transports [] 0 batchSize maxRepos

/-! ## Orchestrator: `GitHubCrawlerService.crawl_stars` and `main` -/

/-- The statistics record assembled by `crawl_stars` (timing fields,
which read the wall clock, are omitted). -/
structure CrawlStats where
  total_crawled : Nat
  total_upserted : Nat
  batch_count : Nat
deriving DecidableEq, Repr

/-- One step of the crawl loop as observed by `crawl_stars`: a batch
arriving from the adapter together with the sink's affected-row count,
a `KeyboardInterrupt` striking inside the loop, or any other exception
raised by the loop body. -/
inductive CrawlEvent where
  | batch (repos : List Repository) (affected : Nat)
  | interrupt
  | failure
deriving DecidableEq, Repr

/-- Whether an event is a normally delivered batch. -/
def isBatch : CrawlEvent → Bool
  | .batch _ _ => true
  | _ => false

/-- Entities delivered by the batch events of a list. -/
def sumCrawled (events : List CrawlEvent) : Nat :=
  (events.map fun e => match e with | .batch rs _ => rs.length | _ => 0).sum

/-- Affected-row counts delivered by the batch events of a list. -/
def sumAffected (events : List CrawlEvent) : Nat :=
  (events.map fun e => match e with | .batch _ a => a | _ => 0).sum

/-- Embedding of the `for batch in ...` loop of `crawl_stars` with its
exception handlers: a batch increments `batch_count`, `total_crawled`
and `total_upserted` and the loop breaks once `total_crawled >=
max_repos`; a `KeyboardInterrupt` is caught (logged) and the
accumulated statistics are still returned; any other exception is
re-raised (`Except.error`).  The `finally` adapter-close block has no
effect on the returned value. -/
def crawlStarsGo (maxRepos : Nat) : List CrawlEvent → Nat → Nat → Nat → Except Unit CrawlStats
  | [], c, u, b => .ok ⟨c, u, b⟩
  | e :: rest, c, u, b =>
    match e with
    | .batch repos affected =>
      let c' := c + repos.length
      let u' := u + affected
      let b' := b + 1
      if maxRepos ≤ c' then .ok ⟨c', u', b'⟩ else crawlStarsGo maxRepos rest c' u' b'
    | .interrupt => .ok ⟨c, u, b⟩
    | .failure => .error ()

/-- Embedding of a full `crawl_stars` call (all counters start at 0). -/
def crawlStars (events : List CrawlEvent) (maxRepos : Nat) : Except Unit CrawlStats :=
  crawlStarsGo maxRepos events 0 0 0

/-- Whether a crawl returned statistics (no exception escaped). -/
def crawlIsOk : Except Unit CrawlStats → Bool
  | .ok _ => true
  | .error _ => false

/-- What happens in `main` after `crawl_stars` has returned: the export
and summary section completes, or a `KeyboardInterrupt` strikes there
(now caught by `main`'s own handler), or another exception does. -/
inductive PostCrawl where
  | ok
  | interrupt
  | failure
deriving DecidableEq, Repr

/-- Embedding of `main`'s exit-code logic: configuration-loading
failure and a missing token return 1 before any crawl; an exception
escaping `crawl_stars` is caught by `except Exception` (exit 1); a
`KeyboardInterrupt` reaching `main`'s own handler (only possible once
`crawl_stars` has returned, since the crawl loop swallows it) exits
130; otherwise 0. -/
def mainExit (configOk tokenOk : Bool) (events : List CrawlEvent) (maxRepos : Nat)
    (post : PostCrawl) : Nat :=
  if !configOk then 1
  else if !tokenOk then 1
  else
    match crawlStars events maxRepos with
    | .error _ => 1
    | .ok _ =>
      match post with
      | .ok => 0
      | .interrupt => 130
      | .failure => 1

/-! ## Concrete fixtures used by witnesses and counterexamples -/

/-- A fully populated raw node. -/
def nodeGood : RawNode := ⟨some 1, some "N1", some "alice", some "proj", some 7⟩

/-- The entity `from_graphql_response` builds from `nodeGood`. -/
def repoGood : Repository := ⟨1, "N1", "alice/proj", "alice", "proj", 7⟩

/-- A raw node with all required fields but no `stargazerCount`. -/
def nodeNoStars : RawNode := ⟨some 3, some "N3", some "carol", some "lib", none⟩

/-- A provider that answers every page request with at most one node
(clamped to the requested page size) and reports no further page. -/
def oneNodePage (_ : Option String) (n : Nat) : PageResult :=
  PageResult.success (List.replicate (min n 1) (some nodeGood)) false none

/-! ## Theorems -/

/-- A well-formed ladder below `top` assigns every star count in
`[0, top]` to exactly one range and no star count above `top` to any
range. -/
theorem ladderFrom_countP (l : List (Nat × Option Nat)) :
    ∀ top, ladderFrom top l = true →
      (∀ n, n ≤ top → l.countP (fun r => inStarRange r n) = 1) ∧
      (∀ n, top < n → l.countP (fun r => inStarRange r n) = 0) := by
  induction l with
  | nil => intro top h; simp [ladderFrom] at h
  | cons hd tl ih =>
    intro top h
    obtain ⟨lo, hi⟩ := hd
    cases hi with
    | none => simp [ladderFrom] at h
    | some hi =>
      simp only [ladderFrom, Bool.and_eq_true, beq_iff_eq] at h
      obtain ⟨⟨hhi, hlohi⟩, hrest⟩ := h
      subst hhi
      rw [Nat.ble_eq] at hlohi
      by_cases hlo : lo = 0
      · subst hlo
        rw [if_pos (by rfl)] at hrest
        have htl : tl = [] := List.isEmpty_iff.mp hrest
        subst htl
        constructor
        · intro n hn
          have hin : inStarRange (0, some hi) n = true := by
            simp [inStarRange]; omega
          simp [List.countP_cons, hin]
        · intro n hn
          have hin : inStarRange (0, some hi) n = false := by
            simp only [inStarRange, decide_eq_false_iff_not]
            omega
          simp [List.countP_cons, hin]
      · rw [if_neg (by simpa using hlo)] at hrest
        obtain ⟨ih1, ih2⟩ := ih (lo - 1) hrest
        constructor
        · intro n hn
          by_cases hc : lo ≤ n
          · have hin : inStarRange (lo, some hi) n = true := by
              simp [inStarRange]; omega
            have htl0 : tl.countP (fun r => inStarRange r n) = 0 := ih2 n (by omega)
            simp [List.countP_cons, hin, htl0]
          · have hin : inStarRange (lo, some hi) n = false := by
              simp only [inStarRange, decide_eq_false_iff_not]
              omega
            have htl1 : tl.countP (fun r => inStarRange r n) = 1 := ih1 n (by omega)
            simp [List.countP_cons, hin, htl1]
        · intro n hn
          have hin : inStarRange (lo, some hi) n = false := by
            simp only [inStarRange, decide_eq_false_iff_not]
            omega
          have htl0 : tl.countP (fun r => inStarRange r n) = 0 := ih2 n (by omega)
          simp [List.countP_cons, hin, htl0]

/-- C3: the static star-range table is ordered from highest to lowest
star count (strictly decreasing lower bounds), and every star count —
including the boundary values 1 and 0 — lies in exactly one range of
the table, so the ranges are pairwise disjoint and cover the whole
domain with no gaps. -/
theorem star_ranges_partition_ordered :
    (∀ n : Nat, STAR_RANGES.countP (fun r => inStarRange r n) = 1) ∧
    descendingMins STAR_RANGES = true := by
  constructor
  · intro n
    have hsplit : STAR_RANGES = (100000, none) :: STAR_RANGES.tail := rfl
    have hlad : ladderFrom 99999 STAR_RANGES.tail = true := by decide
    obtain ⟨h1, h2⟩ := ladderFrom_countP STAR_RANGES.tail 99999 hlad
    rw [hsplit]
    by_cases hc : 100000 ≤ n
    · have hin : inStarRange (100000, none) n = true := by
        simp [inStarRange]; omega
      have htl0 : STAR_RANGES.tail.countP (fun r => inStarRange r n) = 0 := h2 n (by omega)
      simp [List.countP_cons, hin, htl0]
    · have hin : inStarRange (100000, none) n = false := by
        simp only [inStarRange, decide_eq_false_iff_not]
        omega
      have htl1 : STAR_RANGES.tail.countP (fun r => inStarRange r n) = 1 := h1 n (by omega)
      simp [List.countP_cons, hin, htl1]
  · decide

/-- C7: for every rate-limit snapshot, when the remaining quota is below
the low-water mark (50) and the reset instant lies in the future, the
governor sleeps exactly `(reset_at - now) + 2` seconds — at least the
time to the reset plus the safety margin — and otherwise sleeps 0
seconds.  The governor is a total function of the snapshot and clock
(`checkAndHandleRateLimit`), so it can never raise. -/
theorem governor_throttling_policy (remaining : Nat) (resetAt now : Int) :
    (remaining < 50 → now < resetAt →
      checkAndHandleRateLimit remaining resetAt now = (resetAt - now) + 2 ∧
      resetAt - now < checkAndHandleRateLimit remaining resetAt now) ∧
    ((50 ≤ remaining ∨ resetAt ≤ now) → checkAndHandleRateLimit remaining resetAt now = 0) := by
  constructor
  · intro h1 h2
    have e : checkAndHandleRateLimit remaining resetAt now = (resetAt - now) + 2 := by
      unfold checkAndHandleRateLimit
      rw [if_pos h1, if_pos (by omega)]
    exact ⟨e, by omega⟩
  · intro h
    unfold checkAndHandleRateLimit
    rcases h with h | h
    · rw [if_neg (by omega)]
    · by_cases h1 : remaining < 50
      · rw [if_pos h1, if_neg (by omega)]
      · rw [if_neg h1]

/-- C7 witness: a snapshot with 10 remaining requests and a reset 5
seconds in the future sleeps 7 seconds (5 plus the margin); a snapshot
with ample quota sleeps 0. -/
theorem governor_throttling_policy_witness :
    (10 < 50 ∧ (100 : Int) < 105 ∧
      checkAndHandleRateLimit 10 105 100 = 5 + 2 ∧
      (105 : Int) - 100 < checkAndHandleRateLimit 10 105 100) ∧
    (50 ≤ 4000 ∧ checkAndHandleRateLimit 4000 105 100 = 0) := by
  refine ⟨⟨by omega, by omega, ?_, ?_⟩, by omega, ?_⟩
  · exact ((governor_throttling_policy 10 105 100).1 (by omega) (by omega)).1
  · exact ((governor_throttling_policy 10 105 100).1 (by omega) (by omega)).2
  · exact (governor_throttling_policy 4000 105 100).2 (Or.inl (by omega))

/-- C4: evaluation of the retry executor at the failing input.  The
spec says an HTTP 403 whose body mentions the rate limit triggers a
cooldown sleep and is then retried; the code does sleep 60 seconds but
then raises `RateLimitExceeded`, which is not in tenacity's
`retry_if_exception_type((requests.RequestException, requests.Timeout))`
list, so the call is not retried: the queued-up second attempt (a
successful response) is never consumed and the failure surfaces to
`_search_with_query`, whose `except (GitHubAPIError, RateLimitExceeded)`
clause treats it like any fatal error and abandons the partition. -/
theorem execute_query_rate_limited_not_retried :
    executeQuery [HttpResult.response 403 "API rate limit exceeded for installation" [] (0 : Nat),
        HttpResult.response 200 "" [] (42 : Nat)] =
      (Except.error (ExecFailure.rateLimitExceeded "Rate limit exceeded"),
        [SleepEvent.cooldown 60]) := by
  rfl

/-- A Boolean-transient outcome is a `transientErr` with some message. -/
theorem isTransientErr_exists {α : Type} (o : AttemptOutcome α)
    (h : o.isTransientErr = true) : ∃ m, o = AttemptOutcome.transientErr m := by
  cases o with
  | transientErr m => exact ⟨m, rfl⟩
  | success p => simp [AttemptOutcome.isTransientErr] at h
  | rateLimited m => simp [AttemptOutcome.isTransientErr] at h
  | fatal m => simp [AttemptOutcome.isTransientErr] at h

/-- After a run of transiently failing attempts that stays within the
five-attempt budget, a successful attempt makes the retry loop return
that payload together with the attempt number that succeeded. -/
theorem executeQueryGo_transient_prefix {α : Type} (pre : List (HttpResult α)) :
    ∀ (r : HttpResult α) (rest : List (HttpResult α)) (p : α) (n : Nat),
    1 ≤ n → n + pre.length ≤ 5 →
    (pre.all fun a => (attemptOnce a).1.isTransientErr) = true →
    (attemptOnce r).1 = AttemptOutcome.success p →
    (executeQueryGo (pre ++ r :: rest) n).1 = Except.ok (p, n + pre.length) := by
  induction pre with
  | nil =>
    intro r rest p n _ _ _ hsucc
    simp [executeQueryGo, hsucc]
  | cons a pre ih =>
    intro r rest p n hn hbudget hall hsucc
    rw [List.all_cons, Bool.and_eq_true] at hall
    obtain ⟨m, hm⟩ := isTransientErr_exists (attemptOnce a).1 hall.1
    have hlt : n < 5 := by simp at hbudget; omega
    have e : (executeQueryGo (a :: (pre ++ r :: rest)) n).1 =
        (executeQueryGo (pre ++ r :: rest) (n + 1)).1 := by
      simp [executeQueryGo, hm, hlt]
    rw [List.cons_append, e, ih r rest p (n + 1) (by omega) (by simp at hbudget ⊢; omega) hall.2 hsucc]
    simp
    omega

/-- C5: retry classification of `_execute_query`.  A sequence of
transient failures (timeout, HTTP 502/503, or an embedded
`loading`/`timeout` GraphQL error) followed by a success within the
five-attempt budget returns the successful payload with no error
surfaced (at attempt `pre.length + 1 ≤ 5`); a fatal attempt (any other
non-200 status or any other embedded GraphQL error) surfaces
`GitHubAPIError` immediately, on the first attempt, with no retry —
whatever responses were queued after it. -/
theorem execute_query_retry_classification {α : Type}
    (pre rest1 rest2 : List (HttpResult α)) (r1 r2 : HttpResult α) (p : α) (m : String) :
    ((pre.all fun a => (attemptOnce a).1.isTransientErr) = true → pre.length < 5 →
      (attemptOnce r1).1 = AttemptOutcome.success p →
      (executeQuery (pre ++ r1 :: rest1)).1 = Except.ok (p, pre.length + 1)) ∧
    ((attemptOnce r2).1 = AttemptOutcome.fatal m →
      (executeQuery (r2 :: rest2)).1 = Except.error (ExecFailure.apiError m)) := by
  constructor
  · intro hall hlen hsucc
    have := executeQueryGo_transient_prefix pre r1 rest1 p 1 (by omega) (by omega) hall hsucc
    rw [executeQuery, this]
    simp [Nat.add_comm]
  · intro hfatal
    simp [executeQuery, executeQueryGo, hfatal]

/-- C5 witness: a timeout, an HTTP 502 and an embedded `loading` error
are all transient; with a success on the fourth attempt the executor
returns payload 42 at attempt 4 and no error.  An HTTP 404 is fatal on
the first attempt even though a success is queued right behind it. -/
theorem execute_query_retry_classification_witness :
    (([HttpResult.timeout, HttpResult.response 502 "bad gateway" [] (0 : Nat),
        HttpResult.response 200 "" ["Something went wrong while loading"] 0].all
        fun a => (attemptOnce a).1.isTransientErr) = true ∧
      (executeQuery [HttpResult.timeout, HttpResult.response 502 "bad gateway" [] (0 : Nat),
        HttpResult.response 200 "" ["Something went wrong while loading"] 0,
        HttpResult.response 200 "" [] 42]).1 = Except.ok (42, 4)) ∧
    ((attemptOnce (HttpResult.response 404 "not found" [] (0 : Nat))).1 =
        AttemptOutcome.fatal "API error: 404 - not found" ∧
      (executeQuery [HttpResult.response 404 "not found" [] (0 : Nat),
        HttpResult.response 200 "" [] 42]).1 =
        Except.error (ExecFailure.apiError "API error: 404 - not found")) := by
  refine ⟨⟨by rfl, ?_⟩, by rfl, ?_⟩
  · exact (execute_query_retry_classification
      [HttpResult.timeout, HttpResult.response 502 "bad gateway" [] (0 : Nat),
        HttpResult.response 200 "" ["Something went wrong while loading"] 0]
      [] [] (HttpResult.response 200 "" [] 42) (HttpResult.response 200 "" [] 42)
      42 "").1 (by rfl) (by decide) (by rfl)
  · exact (execute_query_retry_classification ([] : List (HttpResult Nat))
      [] [HttpResult.response 200 "" [] 42] (HttpResult.response 200 "" [] 42)
      (HttpResult.response 404 "not found" [] (0 : Nat))
      42 "API error: 404 - not found").2 (by rfl)

/-- C10: a raw record carrying its durable identifier, node id, owner
login and name but lacking `stargazerCount` (absent or `null`) is not
treated as malformed: `from_graphql_response` succeeds, the mapping
step keeps the record without logging a warning, and the constructed
entity's `stargazer_count` is 0. -/
theorem from_graphql_missing_stars_defaults_zero (node : RawNode) (d : Int) :
    node.databaseId = some d →
    strFalsy node.nodeId = false →
    strFalsy node.ownerLogin = false →
    strFalsy node.name = false →
    node.stargazerCount = none →
    processNode (some node) =
      (some ⟨d, node.nodeId.getD "", node.ownerLogin.getD "" ++ "/" ++ node.name.getD "",
        node.ownerLogin.getD "", node.name.getD "", 0⟩, 0) := by
  intro h1 h2 h3 h4 h5
  simp [processNode, from_graphql_response, h1, h2, h3, h4, h5]

/-- C10 witness: `nodeNoStars` has every required field but no
`stargazerCount` and maps to an entity with 0 stars and no warning. -/
theorem from_graphql_missing_stars_defaults_zero_witness :
    nodeNoStars.databaseId = some 3 ∧
    strFalsy nodeNoStars.nodeId = false ∧
    strFalsy nodeNoStars.ownerLogin = false ∧
    strFalsy nodeNoStars.name = false ∧
    nodeNoStars.stargazerCount = none ∧
    processNode (some nodeNoStars) =
      (some ⟨3, "N3", "carol/lib", "carol", "lib", 0⟩, 0) := by
  refine ⟨rfl, rfl, rfl, rfl, rfl, ?_⟩
  exact from_graphql_missing_stars_defaults_zero nodeNoStars 3 rfl rfl rfl rfl rfl

/-- C9 counterexample: a user interrupt delivered inside the crawl loop
is swallowed by `crawl_stars`'s own `except KeyboardInterrupt` handler,
so the loop stops cleanly and the statistics are returned — but `main`
then proceeds normally and the process exits with 0 (success), not with
a distinct interrupt code as the claim states. -/
theorem crawl_interrupt_exits_zero :
    crawlStars [CrawlEvent.batch [repoGood] 1, CrawlEvent.interrupt] 100 =
      Except.ok ⟨1, 1, 1⟩ ∧
    mainExit true true [CrawlEvent.batch [repoGood] 1, CrawlEvent.interrupt] 100
      PostCrawl.ok = 0 := by
  exact ⟨rfl, rfl⟩

/-- The crawl loop over a run of batch events that stays under the
target, cut short by an interrupt: the accumulated statistics are
returned. -/
theorem crawlStarsGo_interrupt (pre : List CrawlEvent) :
    ∀ (rest : List CrawlEvent) (mr c u b : Nat),
    pre.all isBatch = true → c + sumCrawled pre < mr →
    crawlStarsGo mr (pre ++ CrawlEvent.interrupt :: rest) c u b =
      Except.ok ⟨c + sumCrawled pre, u + sumAffected pre, b + pre.length⟩ := by
  induction pre with
  | nil =>
    intro rest mr c u b _ _
    simp [crawlStarsGo, sumCrawled, sumAffected]
  | cons e pre ih =>
    intro rest mr c u b hall hlt
    rw [List.all_cons, Bool.and_eq_true] at hall
    cases e with
    | interrupt => simp [isBatch] at hall
    | failure => simp [isBatch] at hall
    | batch rs a =>
      have hsum : sumCrawled (CrawlEvent.batch rs a :: pre) = rs.length + sumCrawled pre := by
        simp [sumCrawled]
      have haff : sumAffected (CrawlEvent.batch rs a :: pre) = a + sumAffected pre := by
        simp [sumAffected]
      rw [hsum] at hlt
      have hguard : ¬ mr ≤ c + rs.length := by omega
      have e1 : crawlStarsGo mr ((CrawlEvent.batch rs a :: pre) ++ CrawlEvent.interrupt :: rest) c u b =
          crawlStarsGo mr (pre ++ CrawlEvent.interrupt :: rest) (c + rs.length) (u + a) (b + 1) := by
        simp [crawlStarsGo, hguard]
      rw [e1, ih rest mr (c + rs.length) (u + a) (b + 1) hall.2 (by omega), hsum, haff]
      simp only [Except.ok.injEq, CrawlStats.mk.injEq, List.length_cons]
      refine ⟨by omega, by omega, by omega⟩

/-- C9 (amended): on a user interrupt during the crawl loop the loop
stops cleanly and `crawl_stars` still returns the accumulated
statistics record, but because that handler swallows the interrupt,
`main` completes normally and the process exits 0 (the success code).
The distinct interrupt exit code 130 — different from both success (0)
and configuration/fatal error (1) — is only produced when an interrupt
reaches `main`'s own handler after the crawl loop has returned (for
example during the export phase). -/
theorem crawl_interrupt_graceful (pre rest events : List CrawlEvent) (mr : Nat) :
    (pre.all isBatch = true → sumCrawled pre < mr →
      crawlStars (pre ++ CrawlEvent.interrupt :: rest) mr =
        Except.ok ⟨sumCrawled pre, sumAffected pre, pre.length⟩ ∧
      mainExit true true (pre ++ CrawlEvent.interrupt :: rest) mr PostCrawl.ok = 0) ∧
    (crawlIsOk (crawlStars events mr) = true →
      mainExit true true events mr PostCrawl.interrupt = 130 ∧
      (130 : Nat) ≠ 0 ∧ (130 : Nat) ≠ 1) := by
  constructor
  · intro hall hlt
    have hok : crawlStars (pre ++ CrawlEvent.interrupt :: rest) mr =
        Except.ok ⟨sumCrawled pre, sumAffected pre, pre.length⟩ := by
      have := crawlStarsGo_interrupt pre rest mr 0 0 0 hall (by omega)
      simpa [crawlStars] using this
    refine ⟨hok, ?_⟩
    simp [mainExit, hok]
  · intro hok
    cases hcs : crawlStars events mr with
    | error e => rw [hcs] at hok; simp [crawlIsOk] at hok
    | ok s => exact ⟨by simp [mainExit, hcs], by omega, by omega⟩

/-- C9 witness: one batch of one entity then an interrupt — statistics
⟨1, 1, 1⟩ come back and `main` exits 0; had the interrupt struck after
the loop instead, the exit code would be 130. -/
theorem crawl_interrupt_graceful_witness :
    ([CrawlEvent.batch [repoGood] 1].all isBatch = true ∧
      sumCrawled [CrawlEvent.batch [repoGood] 1] < 100 ∧
      crawlStars ([CrawlEvent.batch [repoGood] 1] ++ CrawlEvent.interrupt :: []) 100 =
        Except.ok ⟨1, 1, 1⟩ ∧
      mainExit true true ([CrawlEvent.batch [repoGood] 1] ++ CrawlEvent.interrupt :: []) 100
        PostCrawl.ok = 0) ∧
    (crawlIsOk (crawlStars [CrawlEvent.batch [repoGood] 1] 100) = true ∧
      mainExit true true [CrawlEvent.batch [repoGood] 1] 100 PostCrawl.interrupt = 130) := by
  have h := crawl_interrupt_graceful [CrawlEvent.batch [repoGood] 1] []
    [CrawlEvent.batch [repoGood] 1] 100
  have h1 := h.1 (by rfl) (by decide)
  have h2 := h.2 (by rfl)
  exact ⟨⟨by rfl, by decide, h1.1, h1.2⟩, ⟨by rfl, h2.1⟩⟩

/-- Total length of an empty batch list. -/
theorem sumLens_nil : sumLens ([] : List (List α)) = 0 := rfl

/-- Total length of a batch list, head case. -/
theorem sumLens_cons (x : List α) (l : List (List α)) :
    sumLens (x :: l) = x.length + sumLens l := by
  simp [sumLens]

/-- Total length of concatenated batch lists. -/
theorem sumLens_append (a b : List (List α)) :
    sumLens (a ++ b) = sumLens a + sumLens b := by
  simp [sumLens]

/-- Mapping a page never produces more entities than raw nodes. -/
theorem mapNodes_length_le (nodes : List (Option RawNode)) :
    (mapNodes nodes).1.length ≤ nodes.length := by
  induction nodes with
  | nil => simp [mapNodes]
  | cons n rest ih =>
    cases h : (processNode n).1 with
    | none =>
      simp only [mapNodes, h, List.length_cons]
      omega
    | some r =>
      simp only [mapNodes, h, List.length_cons]
      omega

/-- When the provider honors the requested page size, the pagination
loop of `_search_with_query` never pushes its running fetched total
past the partition budget `maxResults`. -/
theorem searchWithQueryGo_sum_le (f : Option String → Nat → PageResult) (hf : honors f) :
    ∀ (fuel : Nat) (cursor : Option String) (total bs mr : Nat),
    total ≤ mr →
    total + sumLens (searchWithQueryGo f fuel cursor total bs mr).2 ≤ mr := by
  intro fuel
  induction fuel with
  | zero =>
    intro cursor total bs mr h
    simpa [searchWithQueryGo, sumLens] using h
  | succ fuel ih =>
    intro cursor total bs mr htot
    by_cases hlt : total < mr
    · cases hpage : f cursor (min bs (mr - total)) with
      | failure => simpa [searchWithQueryGo, hlt, hpage, sumLens] using htot
      | success nodes hasNext endCur =>
        by_cases hne : nodes.isEmpty
        · simpa [searchWithQueryGo, hlt, hpage, hne, sumLens] using htot
        · have hrle : (mapNodes nodes).1.length ≤ nodes.length := mapNodes_length_le nodes
          have hnl : nodes.length ≤ min bs (mr - total) := by
            have := hf cursor (min bs (mr - total))
            rw [hpage] at this
            simpa [pageLen] using this
          cases hasNext with
          | false =>
            by_cases hre : (mapNodes nodes).1.isEmpty
            · have : (mapNodes nodes).1.length = 0 := by
                rw [List.isEmpty_iff.mp hre]; rfl
              simp [searchWithQueryGo, hlt, hpage, hne, hre, sumLens]
              omega
            · simp [searchWithQueryGo, hlt, hpage, hne, hre, sumLens_cons, sumLens_nil]
              omega
          | true =>
            have ihc := ih endCur (total + (mapNodes nodes).1.length) bs mr (by omega)
            by_cases hre : (mapNodes nodes).1.isEmpty
            · have hzero : (mapNodes nodes).1.length = 0 := by
                rw [List.isEmpty_iff.mp hre]; rfl
              simp only [searchWithQueryGo, if_pos hlt, hpage, hne, Bool.false_eq_true,
                if_false, hre, if_true, ite_true, ite_false]
              simp [hre]
              simpa [hzero] using ihc
            · simp only [searchWithQueryGo, if_pos hlt, hpage, hne, Bool.false_eq_true,
                if_false, hre, ite_true, ite_false]
              simp [hre, sumLens_append, sumLens_cons, sumLens_nil]
              omega
    · simpa [searchWithQueryGo, hlt, sumLens] using htot

/-- Unfolding of `repliesCount` over the head request. -/
theorem repliesCount_cons (f : Option String → Nat → PageResult) (r : PageRequest)
    (l : List PageRequest) :
    repliesCount f (r :: l) =
      (mapNodes (pageNodes (f r.after r.first))).1.length + repliesCount f l := by
  simp [repliesCount]

/-- Every page request issued by the pagination loop asks for exactly
`min(batch_size, maxResults - fetched_so_far)` records, where
`fetched_so_far` is the loop's running total at the moment the request
is issued: the initial `total` plus the mapped-record count of the
pages that answered the earlier requests of the same run (`repliesCount`
of the request-list prefix).  That running total is also still strictly
below the budget when the request goes out (the loop guard). -/
theorem searchWithQueryGo_requests_clamped (f : Option String → Nat → PageResult) :
    ∀ (fuel : Nat) (cursor : Option String) (total bs mr i : Nat) (req : PageRequest),
    (searchWithQueryGo f fuel cursor total bs mr).1[i]? = some req →
    total + repliesCount f ((searchWithQueryGo f fuel cursor total bs mr).1.take i) < mr ∧
    req.first = min bs
      (mr - (total + repliesCount f ((searchWithQueryGo f fuel cursor total bs mr).1.take i))) := by
  intro fuel
  induction fuel with
  | zero =>
    intro cursor total bs mr i req h
    simp [searchWithQueryGo] at h
  | succ fuel ih =>
    intro cursor total bs mr i req h
    by_cases hlt : total < mr
    · cases hpage : f cursor (min bs (mr - total)) with
      | failure =>
        have e : (searchWithQueryGo f (fuel + 1) cursor total bs mr).1 =
            [⟨min bs (mr - total), cursor⟩] := by
          simp [searchWithQueryGo, hlt, hpage]
        rw [e] at h ⊢
        cases i with
        | zero =>
          rw [List.getElem?_cons_zero, Option.some.injEq] at h
          refine ⟨by simpa [repliesCount] using hlt, ?_⟩
          rw [← h]
          simp [repliesCount]
        | succ j => simp at h
      | success nodes hasNext endCur =>
        by_cases hne : nodes.isEmpty
        · have e : (searchWithQueryGo f (fuel + 1) cursor total bs mr).1 =
              [⟨min bs (mr - total), cursor⟩] := by
            simp [searchWithQueryGo, hlt, hpage, hne]
          rw [e] at h ⊢
          cases i with
          | zero =>
            rw [List.getElem?_cons_zero, Option.some.injEq] at h
            refine ⟨by simpa [repliesCount] using hlt, ?_⟩
            rw [← h]
            simp [repliesCount]
          | succ j => simp at h
        · cases hasNext with
          | false =>
            have e : (searchWithQueryGo f (fuel + 1) cursor total bs mr).1 =
                [⟨min bs (mr - total), cursor⟩] := by
              simp [searchWithQueryGo, hlt, hpage, hne]
            rw [e] at h ⊢
            cases i with
            | zero =>
              rw [List.getElem?_cons_zero, Option.some.injEq] at h
              refine ⟨by simpa [repliesCount] using hlt, ?_⟩
              rw [← h]
              simp [repliesCount]
            | succ j => simp at h
          | true =>
            have e : (searchWithQueryGo f (fuel + 1) cursor total bs mr).1 =
                ⟨min bs (mr - total), cursor⟩ ::
                  (searchWithQueryGo f fuel endCur
                    (total + (mapNodes nodes).1.length) bs mr).1 := by
              simp [searchWithQueryGo, hlt, hpage, hne]
            rw [e] at h ⊢
            cases i with
            | zero =>
              rw [List.getElem?_cons_zero, Option.some.injEq] at h
              refine ⟨by simpa [repliesCount] using hlt, ?_⟩
              rw [← h]
              simp [repliesCount]
            | succ j =>
              rw [List.getElem?_cons_succ] at h
              obtain ⟨ih1, ih2⟩ :=
                ih endCur (total + (mapNodes nodes).1.length) bs mr j req h
              have hrc : repliesCount f ((⟨min bs (mr - total), cursor⟩ ::
                  (searchWithQueryGo f fuel endCur
                    (total + (mapNodes nodes).1.length) bs mr).1).take (j + 1)) =
                  (mapNodes nodes).1.length + repliesCount f
                    ((searchWithQueryGo f fuel endCur
                      (total + (mapNodes nodes).1.length) bs mr).1.take j) := by
                rw [List.take_succ_cons, repliesCount_cons]
                simp [hpage, pageNodes]
              rw [hrc]
              refine ⟨by omega, ?_⟩
              rw [ih2]
              congr 1
              omega
    · simp [searchWithQueryGo, hlt] at h

/-- The first page request the pagination loop issues (if any) carries
the cursor the loop was started with. -/
theorem searchWithQueryGo_first_cursor (f : Option String → Nat → PageResult)
    (fuel : Nat) (cursor : Option String) (total bs mr : Nat) (req : PageRequest) :
    (searchWithQueryGo f fuel cursor total bs mr).1.head? = some req → req.after = cursor := by
  cases fuel with
  | zero => intro h; simp [searchWithQueryGo] at h
  | succ fuel =>
    intro h
    by_cases hlt : total < mr
    · cases hpage : f cursor (min bs (mr - total)) with
      | failure =>
        simp [searchWithQueryGo, hlt, hpage] at h
        rw [← h]
      | success nodes hasNext endCur =>
        by_cases hne : nodes.isEmpty
        · simp [searchWithQueryGo, hlt, hpage, hne] at h
          rw [← h]
        · cases hasNext with
          | false =>
            simp [searchWithQueryGo, hlt, hpage, hne] at h
            rw [← h]
          | true =>
            simp [searchWithQueryGo, hlt, hpage, hne] at h
            rw [← h]
    · simp [searchWithQueryGo, hlt] at h

/-- C6: within a single partition, when the provider honors the
requested page size, the cumulative number of records fetched by
`_search_with_query` never exceeds `min(1000, remaining_global_budget)`
(the `max_results` that `search_repositories` passes down); the `i`-th
page request asks for exactly `min(configured_batch_size, max_results -
fetched_so_far)` records, where `fetched_so_far` — the loop's running
total when that request is issued, recovered by replaying the pure
transport over the preceding requests (`repliesCount` of the
request-list prefix before `i`) — is still strictly below the budget;
and the first page request carries a null cursor. -/
theorem search_with_query_cap_and_requests (f : Option String → Nat → PageResult)
    (fuel bs budget : Nat) (hf : honors f) :
    sumLens (searchWithQuery f fuel bs (min 1000 budget)).2 ≤ min 1000 budget ∧
    (∀ (i : Nat) (req : PageRequest),
      (searchWithQuery f fuel bs (min 1000 budget)).1[i]? = some req →
      repliesCount f ((searchWithQuery f fuel bs (min 1000 budget)).1.take i) <
        min 1000 budget ∧
      req.first = min bs (min 1000 budget -
        repliesCount f ((searchWithQuery f fuel bs (min 1000 budget)).1.take i))) ∧
    (∀ req, (searchWithQuery f fuel bs (min 1000 budget)).1.head? = some req →
      req.after = none) := by
  refine ⟨?_, ?_, ?_⟩
  · have := searchWithQueryGo_sum_le f hf fuel none 0 bs (min 1000 budget) (by omega)
    simpa [searchWithQuery] using this
  · intro i req h
    have := searchWithQueryGo_requests_clamped f fuel none 0 bs (min 1000 budget) i req h
    simpa [searchWithQuery] using this
  · intro req h
    exact searchWithQueryGo_first_cursor f fuel none 0 bs (min 1000 budget) req h

/-- C6 witness: against a provider that serves single-node pages, a
partition with batch size 3 and global budget 7 stays under `min(1000,
7)`, each page request asks for exactly `min(3, min(1000, 7) -
fetched_so_far)` records, and the run opens with a null cursor. -/
theorem search_with_query_cap_and_requests_witness :
    honors oneNodePage ∧
    sumLens (searchWithQuery oneNodePage 5 3 (min 1000 7)).2 ≤ min 1000 7 ∧
    (∀ (i : Nat) (req : PageRequest),
      (searchWithQuery oneNodePage 5 3 (min 1000 7)).1[i]? = some req →
      repliesCount oneNodePage
        ((searchWithQuery oneNodePage 5 3 (min 1000 7)).1.take i) < min 1000 7 ∧
      req.first = min 3 (min 1000 7 -
        repliesCount oneNodePage
          ((searchWithQuery oneNodePage 5 3 (min 1000 7)).1.take i))) ∧
    (∀ req, (searchWithQuery oneNodePage 5 3 (min 1000 7)).1.head? = some req →
      req.after = none) := by
  have hf : honors oneNodePage := by
    intro c n
    simp only [oneNodePage, pageLen, List.length_replicate]
    omega
  have h := search_with_query_cap_and_requests oneNodePage 5 3 7 hf
  exact ⟨hf, h.1, h.2.1, h.2.2⟩

/-- Specification of the one-batch duplicate filter: the kept entities
have ids outside the incoming seen-set, their ids are pairwise
distinct, no more entities are kept than arrived, and the outgoing
seen-set holds exactly the incoming ids plus the kept ids. -/
theorem dedupBatch_spec (rs : List Repository) :
    ∀ seen : List Int,
    (∀ r ∈ (dedupBatch rs seen).1, r.id ∉ seen) ∧
    ((dedupBatch rs seen).1.map Repository.id).Nodup ∧
    (dedupBatch rs seen).1.length ≤ rs.length ∧
    (∀ x : Int, x ∈ (dedupBatch rs seen).2 ↔
      x ∈ seen ∨ x ∈ (dedupBatch rs seen).1.map Repository.id) := by
  induction rs with
  | nil => intro seen; simp [dedupBatch]
  | cons r rs ih =>
    intro seen
    by_cases hmem : r.id ∈ seen
    · have e : dedupBatch (r :: rs) seen = dedupBatch rs seen := by
        simp [dedupBatch, hmem]
      rw [e]
      obtain ⟨h1, h2, h3, h4⟩ := ih seen
      exact ⟨h1, h2, Nat.le_succ_of_le h3, h4⟩
    · have e : dedupBatch (r :: rs) seen =
          (r :: (dedupBatch rs (r.id :: seen)).1, (dedupBatch rs (r.id :: seen)).2) := by
        simp [dedupBatch, hmem]
      obtain ⟨h1, h2, h3, h4⟩ := ih (r.id :: seen)
      rw [e]
      refine ⟨?_, ?_, ?_, ?_⟩
      · intro q hq
        rcases List.mem_cons.mp hq with hq | hq
        · rw [hq]; exact hmem
        · intro hq2
          exact h1 q hq (List.mem_cons_of_mem _ hq2)
      · rw [List.map_cons, List.nodup_cons]
        refine ⟨?_, h2⟩
        intro hcontra
        obtain ⟨q, hq, hqid⟩ := List.mem_map.mp hcontra
        have := h1 q hq
        rw [hqid] at this
        exact this (List.mem_cons_self _ _)
      · simp only [List.length_cons]
        omega
      · intro x
        rw [h4 x]
        simp only [List.map_cons, List.mem_cons]
        tauto

/-- Specification of the per-range dedup-and-yield loop: yielded batches
are non-empty, the ids across all yielded batches are pairwise distinct
and disjoint from the incoming seen-set, the outgoing seen-set holds
exactly the incoming ids plus the yielded ids, the outgoing running
total is the incoming one plus the number of yielded entities, and no
more entities are yielded than arrived. -/
theorem dedupLoop_spec (batches : List (List Repository)) :
    ∀ (seen : List Int) (total maxRepos : Nat),
    (∀ b ∈ (dedupLoop batches seen total maxRepos).1, b ≠ []) ∧
    ((dedupLoop batches seen total maxRepos).1.flatten.map Repository.id).Nodup ∧
    (∀ i ∈ (dedupLoop batches seen total maxRepos).1.flatten.map Repository.id, i ∉ seen) ∧
    (∀ x : Int, x ∈ (dedupLoop batches seen total maxRepos).2.1 ↔
      x ∈ seen ∨ x ∈ (dedupLoop batches seen total maxRepos).1.flatten.map Repository.id) ∧
    (dedupLoop batches seen total maxRepos).2.2 =
      total + sumLens (dedupLoop batches seen total maxRepos).1 ∧
    sumLens (dedupLoop batches seen total maxRepos).1 ≤ sumLens batches := by
  induction batches with
  | nil =>
    intro seen total mr
    simp [dedupLoop, sumLens]
  | cons batch rest ih =>
    intro seen total mr
    obtain ⟨b1, b2, b3, b4⟩ := dedupBatch_spec batch seen
    have hyf : (if (dedupBatch batch seen).1.isEmpty then ([] : List (List Repository))
        else [(dedupBatch batch seen).1]).flatten = (dedupBatch batch seen).1 := by
      by_cases hemp : (dedupBatch batch seen).1.isEmpty
      · simp [hemp, List.isEmpty_iff.mp hemp]
      · simp [hemp]
    have hys : sumLens (if (dedupBatch batch seen).1.isEmpty then ([] : List (List Repository))
        else [(dedupBatch batch seen).1]) = (dedupBatch batch seen).1.length := by
      by_cases hemp : (dedupBatch batch seen).1.isEmpty
      · simp [hemp, sumLens, List.isEmpty_iff.mp hemp]
      · simp [hemp, sumLens]
    have hym : ∀ b ∈ (if (dedupBatch batch seen).1.isEmpty then ([] : List (List Repository))
        else [(dedupBatch batch seen).1]), b ≠ [] := by
      by_cases hemp : (dedupBatch batch seen).1.isEmpty
      · simp [hemp]
      · intro b hb
        simp only [hemp, if_neg, Bool.false_eq_true, if_false, List.mem_singleton] at hb
        rw [hb]
        intro hcon
        rw [hcon] at hemp
        simp at hemp
    by_cases hstop : mr ≤ total + (dedupBatch batch seen).1.length
    · have e : dedupLoop (batch :: rest) seen total mr =
          ((if (dedupBatch batch seen).1.isEmpty then []
            else [(dedupBatch batch seen).1]),
            (dedupBatch batch seen).2, total + (dedupBatch batch seen).1.length) := by
        simp only [dedupLoop]
        rw [if_pos hstop]
      rw [e]
      dsimp only
      refine ⟨hym, ?_, ?_, ?_, ?_, ?_⟩
      · rw [hyf]
        exact b2
      · intro i hi
        rw [hyf] at hi
        obtain ⟨q, hq, rfl⟩ := List.mem_map.mp hi
        exact b1 q hq
      · intro x
        rw [hyf]
        exact b4 x
      · rw [hys]
      · rw [hys, sumLens_cons]
        omega
    · have e : dedupLoop (batch :: rest) seen total mr =
          ((if (dedupBatch batch seen).1.isEmpty then []
            else [(dedupBatch batch seen).1]) ++
            (dedupLoop rest (dedupBatch batch seen).2
              (total + (dedupBatch batch seen).1.length) mr).1,
            (dedupLoop rest (dedupBatch batch seen).2
              (total + (dedupBatch batch seen).1.length) mr).2.1,
            (dedupLoop rest (dedupBatch batch seen).2
              (total + (dedupBatch batch seen).1.length) mr).2.2) := by
        simp only [dedupLoop]
        rw [if_neg hstop]
      obtain ⟨q1, q2, q3, q4, q5, q6⟩ :=
        ih (dedupBatch batch seen).2 (total + (dedupBatch batch seen).1.length) mr
      rw [e]
      dsimp only
      refine ⟨?_, ?_, ?_, ?_, ?_, ?_⟩
      · intro b hb
        rcases List.mem_append.mp hb with hb | hb
        · exact hym b hb
        · exact q1 b hb
      · rw [List.flatten_append, List.map_append, hyf, List.nodup_append]
        refine ⟨b2, q2, ?_⟩
        intro a haP haQ
        have haP2 : a ∈ (dedupBatch batch seen).2 := (b4 a).mpr (Or.inr haP)
        exact q3 a haQ haP2
      · intro i hi
        rw [List.flatten_append, List.map_append, hyf] at hi
        rcases List.mem_append.mp hi with hi | hi
        · obtain ⟨q, hq, rfl⟩ := List.mem_map.mp hi
          exact b1 q hq
        · intro hseen
          exact q3 i hi ((b4 i).mpr (Or.inl hseen))
      · intro x
        rw [List.flatten_append, List.map_append, hyf]
        rw [q4 x, b4 x]
        simp only [List.mem_append]
        tauto
      · rw [q5, sumLens_append, hys]
        omega
      · rw [sumLens_append, hys, sumLens_cons]
        omega

/-- Specification of the partition loop of `search_repositories`: every
yielded batch is non-empty, and the ids across all yielded batches are
pairwise distinct and disjoint from the incoming seen-set. -/
theorem searchRepositoriesGo_spec (ts : List RangeTransport) :
    ∀ (seen : List Int) (total bs mr : Nat),
    (∀ b ∈ searchRepositoriesGo ts seen total bs mr, b ≠ []) ∧
    ((searchRepositoriesGo ts seen total bs mr).flatten.map Repository.id).Nodup ∧
    (∀ i ∈ (searchRepositoriesGo ts seen total bs mr).flatten.map Repository.id,
      i ∉ seen) := by
  induction ts with
  | nil =>
    intro seen total bs mr
    simp [searchRepositoriesGo]
  | cons t rest ih =>
    intro seen total bs mr
    by_cases hguard : mr ≤ total
    · simp [searchRepositoriesGo, hguard]
    · have e : searchRepositoriesGo (t :: rest) seen total bs mr =
          (dedupLoop (searchWithQueryGo t.f t.fuel none 0 bs (min 1000 (mr - total))).2
            seen total mr).1 ++
          searchRepositoriesGo rest
            (dedupLoop (searchWithQueryGo t.f t.fuel none 0 bs (min 1000 (mr - total))).2
              seen total mr).2.1
            (dedupLoop (searchWithQueryGo t.f t.fuel none 0 bs (min 1000 (mr - total))).2
              seen total mr).2.2 bs mr := by
        simp only [searchRepositoriesGo]
        rw [if_neg hguard]
      obtain ⟨d1, d2, d3, d4, d5, d6⟩ :=
        dedupLoop_spec (searchWithQueryGo t.f t.fuel none 0 bs (min 1000 (mr - total))).2
          seen total mr
      obtain ⟨r1, r2, r3⟩ :=
        ih (dedupLoop (searchWithQueryGo t.f t.fuel none 0 bs (min 1000 (mr - total))).2
            seen total mr).2.1
          (dedupLoop (searchWithQueryGo t.f t.fuel none 0 bs (min 1000 (mr - total))).2
            seen total mr).2.2 bs mr
      rw [e]
      refine ⟨?_, ?_, ?_⟩
      · intro b hb
        rcases List.mem_append.mp hb with hb | hb
        · exact d1 b hb
        · exact r1 b hb
      · rw [List.flatten_append, List.map_append, List.nodup_append]
        refine ⟨d2, r2, ?_⟩
        intro a haD haR
        exact r3 a haR ((d4 a).mpr (Or.inr haD))
      · intro i hi
        rw [List.flatten_append, List.map_append] at hi
        rcases List.mem_append.mp hi with hi | hi
        · exact d3 i hi
        · intro hseen
          exact r3 i hi ((d4 i).mpr (Or.inl hseen))

/-- C1: over a whole `search_repositories` run — any number of
partitions, pages and provider behaviours — no durable numeric
identifier is yielded twice (the seen-set filter removes every already
seen id), and every yielded batch is non-empty. -/
theorem search_repositories_dedup (ts : List RangeTransport) (bs mr : Nat) :
    (∀ b ∈ searchRepositories ts bs mr, b ≠ []) ∧
    ((searchRepositories ts bs mr).flatten.map Repository.id).Nodup := by
  obtain ⟨h1, h2, _⟩ := searchRepositoriesGo_spec ts [] 0 bs mr
  exact ⟨h1, h2⟩

/-- C1 witness: a concrete run against the single-node provider. -/
theorem search_repositories_dedup_witness :
    (∀ b ∈ searchRepositories [RangeTransport.mk oneNodePage 3] 10 100, b ≠ []) ∧
    ((searchRepositories [RangeTransport.mk oneNodePage 3] 10 100).flatten.map
      Repository.id).Nodup :=
  search_repositories_dedup [RangeTransport.mk oneNodePage 3] 10 100

/-- When the provider honors page sizes, the partition loop keeps the
running deduplicated total within the global target. -/
theorem searchRepositoriesGo_total (ts : List RangeTransport) :
    ∀ (seen : List Int) (total bs mr : Nat),
    (∀ t ∈ ts, honors t.f) → total ≤ mr →
    total + sumLens (searchRepositoriesGo ts seen total bs mr) ≤ mr := by
  induction ts with
  | nil =>
    intro seen total bs mr _ h
    simpa [searchRepositoriesGo, sumLens] using h
  | cons t rest ih =>
    intro seen total bs mr hall htot
    by_cases hguard : mr ≤ total
    · simp only [searchRepositoriesGo]
      rw [if_pos hguard]
      simpa [sumLens] using htot
    · have e : searchRepositoriesGo (t :: rest) seen total bs mr =
          (dedupLoop (searchWithQueryGo t.f t.fuel none 0 bs (min 1000 (mr - total))).2
            seen total mr).1 ++
          searchRepositoriesGo rest
            (dedupLoop (searchWithQueryGo t.f t.fuel none 0 bs (min 1000 (mr - total))).2
              seen total mr).2.1
            (dedupLoop (searchWithQueryGo t.f t.fuel none 0 bs (min 1000 (mr - total))).2
              seen total mr).2.2 bs mr := by
        simp only [searchRepositoriesGo]
        rw [if_neg hguard]
      obtain ⟨_, _, _, _, d5, d6⟩ :=
        dedupLoop_spec (searchWithQueryGo t.f t.fuel none 0 bs (min 1000 (mr - total))).2
          seen total mr
      have hbsum : sumLens (searchWithQueryGo t.f t.fuel none 0 bs (min 1000 (mr - total))).2 ≤
          min 1000 (mr - total) := by
        have := searchWithQueryGo_sum_le t.f (hall t (List.mem_cons_self t rest))
          t.fuel none 0 bs (min 1000 (mr - total)) (by omega)
        omega
      have hd : (dedupLoop (searchWithQueryGo t.f t.fuel none 0 bs (min 1000 (mr - total))).2
          seen total mr).2.2 ≤ mr := by
        rw [d5]
        omega
      have hrest := ih
        (dedupLoop (searchWithQueryGo t.f t.fuel none 0 bs (min 1000 (mr - total))).2
          seen total mr).2.1
        (dedupLoop (searchWithQueryGo t.f t.fuel none 0 bs (min 1000 (mr - total))).2
          seen total mr).2.2 bs mr
        (fun t' ht' => hall t' (List.mem_cons_of_mem t ht')) hd
      rw [e, sumLens_append]
      omega

/-- C2: for every global target `max_repos` and every
page-size-honoring provider, the cumulative number of unique entities
yielded by `search_repositories` never exceeds `max_repos`; moreover a
star-range partition is skipped entirely (the loop breaks) whenever the
running deduplicated total has already reached the target before the
range starts. -/
theorem search_repositories_early_stop (ts : List RangeTransport) (bs mr : Nat) :
    (∀ t ∈ ts, honors t.f) →
    sumLens (searchRepositories ts bs mr) ≤ mr ∧
    (∀ (t : RangeTransport) (rest : List RangeTransport) (seen : List Int) (total : Nat),
      mr ≤ total → searchRepositoriesGo (t :: rest) seen total bs mr = []) := by
  intro hall
  constructor
  · have := searchRepositoriesGo_total ts [] 0 bs mr hall (by omega)
    simpa [searchRepositories] using this
  · intro t rest seen total htot
    simp only [searchRepositoriesGo]
    rw [if_pos htot]

/-- C2 witness: against the single-node provider with target 5, the run
yields at most 5 entities and a partition starting at total 5 is
skipped. -/
theorem search_repositories_early_stop_witness :
    (∀ t ∈ [RangeTransport.mk oneNodePage 3], honors t.f) ∧
    sumLens (searchRepositories [RangeTransport.mk oneNodePage 3] 10 5) ≤ 5 ∧
    (∀ (t : RangeTransport) (rest : List RangeTransport) (seen : List Int) (total : Nat),
      5 ≤ total → searchRepositoriesGo (t :: rest) seen total 10 5 = []) := by
  have hall : ∀ t ∈ [RangeTransport.mk oneNodePage 3], honors t.f := by
    intro t ht
    rw [List.mem_singleton] at ht
    rw [ht]
    intro c n
    simp only [oneNodePage, pageLen, List.length_replicate]
    omega
  have h := search_repositories_early_stop [RangeTransport.mk oneNodePage 3] 10 5 hall
  exact ⟨hall, h.1, h.2⟩
